import Mathlib

/-!
Verification of the command-execution engine in `easybuild/tools/run.py`.

The definitions below are a shallow embedding of the parts of the module the
properties talk about: the interactive question/answer matching of
`_answer_question` and `run_cmd_qa`, the escalating process termination of
`terminate_process`, the dry-run early exit and temporary-output-file setup
of `run_shell_cmd`, the result cache of `run_cmd_cache`, the output
classification of `extract_errors_from_log` / `check_log_for_errors`, the
working-directory save/restore of `run_cmd` / `complete_cmd` / `run_cmd_qa`,
and the `RunShellCmdError` exception class.

Conventions: machine-level details are modelled explicitly (Python's
`Popen.send_signal` delivers a signal only to a process that has not yet
been reaped; `a or b` falls through on the empty string; dict assignment is
front insertion into an association list looked up left to right).  Regular
expressions appear in two forms: for the Q&A patterns, which the module
always extends with `[\s\n]*$`, the embedding covers literal patterns via an
explicit search function; for the log classifiers, a compiled regex is
modelled as an opaque line predicate.
-/

/-- Whitespace characters of the regex class `[\s\n]` (ASCII `\s`): space,
tab, newline, carriage return, vertical tab, form feed. -/
def isWSChar (c : Char) : Bool :=
  c = ' ' || c = '\t' || c = '\n' || c = '\r' || c = '\x0b' || c = '\x0c'

/-- Match of `pat ++ [\s\n]*$` anchored at the start of `s`: `pat` is a
prefix of `s` and everything after it is whitespace up to the end. -/
def matchHereWS (pat s : List Char) : Bool :=
  pat.isPrefixOf s && (s.drop pat.length).all isWSChar

/-- Regex search of `pat ++ [\s\n]*$` over `s`, for a literal pattern `pat`:
some position of `s` at which `pat` occurs followed only by whitespace up to
the end of `s`.  Models `re.compile(question + r'[\s\n]*$').search(stdout)`
in `_answer_question` (run.py lines 214-218 and 248-252) for patterns
without regex metacharacters. -/
def searchLitWS (pat : List Char) : List Char → Bool
  | [] => matchHereWS pat []
  | c :: rest => matchHereWS pat (c :: rest) || searchLitWS pat rest

/-- Answer source for a question pattern (run.py lines 222-229): a fixed
string is reused as is; a list is cycled through. -/
inductive Answers where
  | fixed (a : String)
  | rotating (as : List String)
  deriving DecidableEq

instance : Inhabited Answers := ⟨Answers.fixed ""⟩

/-- Consume the current answer from an answer source and return it with the
updated source.  For a list, the first element is popped and appended to the
back (run.py lines 223-225); `none` models the `IndexError` that
`answers.pop(0)` raises on an empty list. -/
def takeAnswer : Answers → Option (String × Answers)
  | .fixed a => some (a, .fixed a)
  | .rotating [] => none
  | .rotating (a :: rest) => some (a, .rotating (rest ++ [a]))

/-- Outcome of one `_answer_question` call (run.py lines 207-261):
a question pattern matched and a reply was written; a wait pattern matched
(nothing written); no pattern matched; or the answer list was exhausted. -/
inductive AQOutcome where
  | answered (written : String) (pats : List (List Char × Answers))
  | waitMatched
  | noMatch
  | err
  deriving DecidableEq

/-- Scan the question patterns in order for the first whose pattern (with
optional trailing whitespace allowed) matches `stdout`; on a match consume
the answer, apply the named-capture substitution `subst` (the `%` formatting
of run.py line 233) and append a newline (run.py line 234 appends it
unconditionally).  Returns the written reply with the updated pattern list,
`some none` when the matching pattern's answer list is empty, and `none`
when no question pattern matches. -/
def answerQuestionsGo (subst : String → String) (stdout : List Char) :
    List (List Char × Answers) → Option (Option (String × List (List Char × Answers)))
  | [] => none
  | (q, ans) :: rest =>
    if searchLitWS q stdout then
      match takeAnswer ans with
      | some (a, ans') => some (some (subst a ++ "\n", (q, ans') :: rest))
      | none => some none
    else
      (answerQuestionsGo subst stdout rest).map
        (Option.map (fun p => (p.1, (q, ans) :: p.2)))

/-- Model of `_answer_question` (run.py lines 207-261): try the question
patterns in order; on the first match write the formatted answer, with a
newline appended, to the child's stdin and stop; otherwise try the wait
patterns in order; a wait match resets the stall timer but writes nothing. -/
def answer_question (subst : String → String) (stdout : List Char)
    (qa_patterns : List (List Char × Answers))
    (qa_wait_patterns : List (List Char)) : AQOutcome :=
  match answerQuestionsGo subst stdout qa_patterns with
  | some (some (w, pats)) => .answered w pats
  | some none => .err
  | none =>
    if qa_wait_patterns.any (fun p => searchLitWS p stdout) then .waitMatched
    else .noMatch

/-- Append a trailing newline only when absent; answers already ending in a
newline are left unchanged.  Models the answer normalisation of `process_QA`
in `run_cmd_qa` (run.py lines 983-985, and lines 1017-1018 for `std_qa`). -/
def ensureNewline (a : String) : String :=
  if a.endsWith "\n" then a else a ++ "\n"

/-- The per-question answer-list normalisation of `process_QA`: every answer
that does not end in a newline gets one appended. -/
def process_QA_answers (a_s : List String) : List String :=
  a_s.map ensureNewline

/-- One cycle of the interactive loop at a fixed accumulated output: the
reply written and the updated pattern state, when a question matched. -/
def qaStep (subst : String → String) (stdout : List Char)
    (wait : List (List Char)) (pats : List (List Char × Answers)) :
    Option (String × List (List Char × Answers)) :=
  match answer_question subst stdout pats wait with
  | .answered w pats' => some (w, pats')
  | _ => none

/-- Pattern state after `n` answered Q&A cycles. -/
def qaStateN (subst : String → String) (stdout : List Char)
    (wait : List (List Char)) :
    Nat → List (List Char × Answers) → Option (List (List Char × Answers))
  | 0, pats => some pats
  | n + 1, pats =>
    match qaStep subst stdout wait pats with
    | some (_, pats') => qaStateN subst stdout wait n pats'
    | none => none

/-- The reply written on the `n`-th answered cycle (0-indexed). -/
def qaAnswerAt (subst : String → String) (stdout : List Char)
    (wait : List (List Char)) (pats : List (List Char × Answers)) (n : Nat) :
    Option String :=
  (qaStateN subst stdout wait n pats).bind
    (fun p => (qaStep subst stdout wait p).map Prod.fst)

/-- Signals the engine can direct at a child process. -/
inductive Sig where
  | sigterm
  | sigkill
  deriving DecidableEq

/-- Behaviour of a `subprocess.Popen` child for the termination model:
whether it is currently alive, and whether it exits within the wait window
after receiving each signal. -/
structure PopenState where
  alive : Bool
  exitsAfterTerm : Bool
  exitsAfterKill : Bool
  deriving DecidableEq

/-- `Popen.send_signal` semantics, used by both `Popen.terminate()` and
`Popen.kill()`: Python polls first and does nothing when the process has
already completed, so the signal is delivered only to a live process. -/
def sendSignal (alive : Bool) (s : Sig) : List Sig :=
  if alive then [s] else []

/-- Model of `terminate_process` (run.py lines 291-308): `proc.terminate()`;
`proc.wait(timeout)` where a `TimeoutExpired` is only logged; `proc.kill()`
(invoked unconditionally, but a no-op on a reaped process, see
`sendSignal`); `proc.wait(timeout)` where a `TimeoutExpired` raises
`EasyBuildError`.  Returns the signals actually delivered to the child and
whether the final fatal error is raised. -/
def terminate_process (p : PopenState) : List Sig × Bool :=
  let d1 := sendSignal p.alive .sigterm
  let alive1 := p.alive && !p.exitsAfterTerm
  let d2 := sendSignal alive1 .sigkill
  let alive2 := alive1 && !p.exitsAfterKill
  (d1 ++ d2, alive2)

/-- Process-directed actions the engine performs when a budget is
exhausted, at the granularity of the calls appearing in the source. -/
inductive ProcAction where
  | terminateEscalating
  | killpgSIGKILL
  | killSIGKILL
  deriving DecidableEq

/-- The escalating graceful-then-forceful termination sequence: one call to
`terminate_process`. -/
def escalatingTermination : List ProcAction := [ProcAction.terminateEscalating]

/-- Result of one stall-bookkeeping step in `run_shell_cmd`'s loop. -/
inductive StallStep where
  | keepGoing (time_no_match : Nat)
  | stallRaise (actions : List ProcAction)
  deriving DecidableEq

/-- Model of the per-cycle Q&A stall bookkeeping in `run_shell_cmd`
(run.py lines 508-519), with time counted in ticks of
`check_interval_secs = 0.1` seconds: on a match the no-match time resets to
zero; otherwise it grows by one tick, and once it exceeds the budget the
fatal stall error is raised.  The action list holds the process-directed
calls made before raising: the source raises `EasyBuildError` directly,
without terminating the child. -/
def qa_stall_check (matchFound : Bool) (time_no_match qa_timeout_ticks : Nat) :
    StallStep :=
  if matchFound then .keepGoing 0
  else
    let t := time_no_match + 1
    if qa_timeout_ticks < t then .stallRaise []
    else .keepGoing t

/-- Model of the wall-clock timeout check in `run_shell_cmd`'s loop
(run.py lines 475-479): when the timeout is exceeded, `terminate_process`
is called and then the fatal timeout error is raised. -/
def wallclock_timeout_check (elapsed : Nat) (timeout : Option Nat) :
    Option (List ProcAction) :=
  match timeout with
  | some t => if t < elapsed then some escalatingTermination else none
  | none => none

/-- Model of the `maxhits` stall check in `run_cmd_qa` (run.py lines
1132-1141): once the hit counter exceeds `maxhits`, SIGKILL is sent to the
child's process group and then to the child itself, and the fatal error is
raised. -/
def maxhits_check (hit_count maxhits : Nat) : Option (List ProcAction) :=
  if maxhits < hit_count then
    some [ProcAction.killpgSIGKILL, ProcAction.killSIGKILL]
  else none

/-- One cycle of `run_cmd_qa`'s stall bookkeeping (run.py lines 1087-1130):
`hit` says whether a question pattern matched and was answered, `grew`
whether the accumulated output got longer than the previous maximum,
`noqaMatched` whether a no-question pattern matched.  The hit counter resets
on a hit, is left alone on growth or on a no-question match, and increments
on an unmatched no-growth cycle. -/
def run_cmd_qa_hit_count (hit grew noqaMatched : Bool) (hit_count : Nat) : Nat :=
  if hit then 0
  else if grew then hit_count
  else if noqaMatched then hit_count
  else hit_count + 1

/-- A command passed to the run functions: a single string, or an argument
vector (the source distinguishes them with `isinstance` checks). -/
inductive Cmd where
  | str (s : String)
  | argv (args : List String)
  deriving DecidableEq

/-- `to_cmd_str` (run.py lines 343-354): strings are stripped, argument
vectors are joined with spaces. -/
def to_cmd_str : Cmd → String
  | .str s => s.trim
  | .argv args => String.intercalate " " args

/-- Result named tuple `RunShellCmdResult` (run.py lines 92-93). -/
structure RunShellCmdResult where
  cmd : String
  exit_code : Int
  output : String
  stderr : Option String
  work_dir : String
  out_file : Option String
  err_file : Option String
  thread_id : Option Nat
  task_id : Option String
  deriving DecidableEq

/-- Side effects of the front part of `run_shell_cmd` that the model
tracks: creating the top-level output directory, creating the per-call
temporary directory, and spawning the child process. -/
inductive Effect where
  | makedirs (path : String)
  | mkdtemp (dir : String)
  | spawn (cmd : String)
  deriving DecidableEq

/-- The two build options `run_shell_cmd`'s dry-run path consults. -/
structure DryRunCfg where
  extended_dry_run : Bool
  silent : Bool
  deriving DecidableEq

/-- Front portion of `run_shell_cmd` (run.py lines 364-407): default the
working directory to the current one, build the temporary output file paths
-- creating the output directories when `output_file` is enabled, which
happens before the dry-run check -- and then, in extended dry-run mode
without forced real execution, return the synthetic zero-exit result.
`tmpdir` stands for the fresh directory name `tempfile.mkdtemp` generates.
Returns `some` result on the dry-run early exit and `none` when execution
proceeds to spawning, together with the effects performed. -/
def run_shell_cmd_pre (cmd : Cmd) (in_dry_run hidden verbose_dry_run : Bool)
    (work_dir : Option String) (cwd : String) (output_file split_stderr : Bool)
    (cfg : DryRunCfg) (tmpdir : String) (thread_id : Option Nat)
    (task_id : Option String) : Option RunShellCmdResult × List Effect :=
  let wd := work_dir.getD cwd
  let cmd_str := to_cmd_str cmd
  let effs :=
    if output_file then [Effect.makedirs "run-shell-cmd-output", Effect.mkdtemp tmpdir]
    else []
  let cmd_out_fp := if output_file then some (tmpdir ++ "/out.txt") else none
  let cmd_err_fp :=
    if output_file && split_stderr then some (tmpdir ++ "/err.txt") else none
  if !in_dry_run && cfg.extended_dry_run then
    (some { cmd := cmd_str, exit_code := 0, output := "", stderr := none,
            work_dir := wd, out_file := cmd_out_fp, err_file := cmd_err_fp,
            thread_id := thread_id, task_id := task_id }, effs)
  else
    (none, effs ++ [Effect.spawn cmd_str])

/-- The fixed allow-list of cacheable probe commands (run.py lines 80-89). -/
def CACHED_COMMANDS : List String := [
  "sysctl -n hw.cpufrequency_max",
  "sysctl -n hw.memsize",
  "sysctl -n hw.ncpu",
  "sysctl -n machdep.cpu.brand_string",
  "sysctl -n machdep.cpu.vendor",
  "type module",
  "type _module_raw",
  "ulimit -u"]

/-- Python truthiness fallback for the cache key's input component,
`kwargs.get('stdin', None) or kwargs.get('inp', None)` (run.py line 173):
an absent or empty `stdin` falls back to `inp`. -/
def effInput (stdin inp : Option String) : Option String :=
  match stdin with
  | some s => if s = "" then inp else some s
  | none => inp

/-- Key of the memoization cache: the command and the resolved stdin. -/
abbrev CacheKey := Cmd × Option String

/-- The memoization cache, an association list standing for the Python
dict: assignments insert at the front, lookups scan left to right. -/
abbrev Cache := List (CacheKey × RunShellCmdResult)

/-- Dict lookup in the cache. -/
def cacheLookup (c : Cache) (k : CacheKey) : Option RunShellCmdResult :=
  match c with
  | [] => none
  | (k', v) :: rest => if k' = k then some v else cacheLookup rest k

/-- `isinstance(cmd, str)`. -/
def isStrCmd : Cmd → Bool
  | .str _ => true
  | .argv _ => false

/-- `cmd in CACHED_COMMANDS` (run.py line 180): membership compares with
`==`, and a list never equals a string, so only string commands qualify. -/
def inCachedCommands : Cmd → Bool
  | .str s => decide (s ∈ CACHED_COMMANDS)
  | .argv _ => false

/-- Model of the wrapper built by `run_cmd_cache` (run.py lines 165-188):
serve string commands from the cache when present; otherwise invoke the
wrapped function -- `run`, which spawns a process -- and store the result
when the command is on the allow-list.  The boolean of the result reports
whether the wrapped function was invoked, that is, whether a process was
spawned by this call. -/
def run_cmd_cached (run : Cmd → Option String → Option String → RunShellCmdResult)
    (cache : Cache) (cmd : Cmd) (stdin inp : Option String) :
    RunShellCmdResult × Cache × Bool :=
  let key : CacheKey := (cmd, effInput stdin inp)
  match cacheLookup cache key with
  | some r =>
    if isStrCmd cmd then (r, cache, false)
    else
      let res := run cmd stdin inp
      let cache' := if inCachedCommands cmd then (key, res) :: cache else cache
      (res, cache', true)
  | none =>
    let res := run cmd stdin inp
    let cache' := if inCachedCommands cmd then (key, res) :: cache else cache
    (res, cache', true)

/-- Strictness and severity levels, `IGNORE` / `WARN` / `ERROR` from
`easybuild.tools.config`. -/
inductive Severity where
  | IGNORE
  | WARN
  | ERROR
  deriving DecidableEq

/-- Helper for `nub`: keep the elements not seen yet, in order. -/
def nubAux (seen : List String) : List String → List String
  | [] => []
  | x :: rest => if x ∈ seen then nubAux seen rest else x :: nubAux (x :: seen) rest

/-- Modelled from the spec: `nub` from `easybuild.tools.utilities` is not
under `src/`; per the spec, duplicate lines are suppressed from the reported
lists in stable, first-occurrence order. -/
def nub (xs : List String) : List String := nubAux [] xs

/-- The first matching rule's severity for a line (run.py lines 1310-1316:
the inner loop breaks at the first rule whose regex matches the line).  A
compiled regex is modelled as an opaque line predicate. -/
def classifyLine (rules : List ((String → Bool) × Severity)) (line : String) :
    Option Severity :=
  match rules with
  | [] => none
  | (m, act) :: rest => if m line then some act else classifyLine rest line

/-- `extract_errors_from_log` (run.py lines 1272-1317): split the log into
lines; each line is classified by its first matching rule (`ERROR` lines
collected as errors, `WARN` as warnings, `IGNORE` dropped); both lists are
deduplicated with `nub`. -/
def extract_errors_from_log (log_txt : String)
    (rules : List ((String → Bool) × Severity)) : List String × List String :=
  let lines := log_txt.splitOn "\n"
  let warnings := lines.filter (fun l => decide (classifyLine rules l = some Severity.WARN))
  let errors := lines.filter (fun l => decide (classifyLine rules l = some Severity.ERROR))
  (nub warnings, nub errors)

/-- `check_log_for_errors` (run.py lines 1320-1336): extract warnings and
errors; warnings are logged (first component); when the error list is
nonempty an `EasyBuildError` listing those lines is raised (modelled by the
`some` second component). -/
def check_log_for_errors (log_txt : String)
    (rules : List ((String → Bool) × Severity)) :
    List String × Option (List String) :=
  let (ws, es) := extract_errors_from_log log_txt rules
  (ws, if es.isEmpty then none else some es)

/-- Process-wide state for the working-directory model: the current working
directory of the Python process and the set of existing directories. -/
structure OSState where
  cwd : String
  dirs : List String
  deriving DecidableEq

/-- `os.chdir`: fails when the target directory does not exist. -/
def chdir (s : OSState) (d : String) : Option OSState :=
  if d ∈ s.dirs then some { cwd := d, dirs := s.dirs } else none

/-- Model of the synchronous `run_cmd` path (run.py lines 679, 740-747, 784
and `complete_cmd` lines 893-896): save the current directory, change into
`path` when given -- a failure there is only logged -- then run the command
to completion, during which the child may change the filesystem (`cmdFS`)
but not the parent's working directory, and finally change back to the
saved directory, raising `EasyBuildError` when that fails. -/
def run_cmd_model (s : OSState) (path : Option String)
    (cmdFS : List String → List String) : Except String OSState :=
  let owd := s.cwd
  let s1 := match path with
    | some p => (chdir s p).getD s
    | none => s
  let s2 : OSState := { cwd := s1.cwd, dirs := cmdFS s1.dirs }
  match chdir s2 owd with
  | some s3 => Except.ok s3
  | none => Except.error "Failed to return to the original working directory"

/-- Model of `run_cmd_qa` run to completion (run.py lines 917, 958-965 and
1167-1170): the same save / optional-chdir / run / restore shape as
`run_cmd`, with the restore failure raising `EasyBuildError`. -/
def run_cmd_qa_model (s : OSState) (path : Option String)
    (cmdFS : List String → List String) : Except String OSState :=
  let owd := s.cwd
  let s1 := match path with
    | some p => (chdir s p).getD s
    | none => s
  let s2 : OSState := { cwd := s1.cwd, dirs := cmdFS s1.dirs }
  match chdir s2 owd with
  | some s3 => Except.ok s3
  | none => Except.error "Failed to return to the original working directory"

/-- The Python exception classes relevant to `RunShellCmdError`. -/
inductive PyClass where
  | BaseExceptionCls
  | ExceptionCls
  | RunShellCmdErrorCls
  deriving DecidableEq

/-- Declared direct superclass of each class:
`class RunShellCmdError(BaseException)` (run.py line 96); Python's built-in
`Exception` is itself a direct subclass of `BaseException`. -/
def pySuperclass : PyClass → Option PyClass
  | .RunShellCmdErrorCls => some .BaseExceptionCls
  | .ExceptionCls => some .BaseExceptionCls
  | .BaseExceptionCls => none

/-- Ancestors of a class, the class itself included, following
`pySuperclass` to the root. -/
def ancestors : PyClass → List PyClass
  | .BaseExceptionCls => [.BaseExceptionCls]
  | .ExceptionCls => [.ExceptionCls, .BaseExceptionCls]
  | .RunShellCmdErrorCls => [.RunShellCmdErrorCls, .BaseExceptionCls]

/-- `issubclass(c, d)`; an `except d:` handler catches an instance of `c`
exactly when this holds. -/
def isSubclass (c d : PyClass) : Bool := (ancestors c).contains d

/-- Caller source location collected by `raise_run_shell_cmd_error`
(run.py lines 159-160). -/
structure CallerInfo where
  filename : String
  lineno : Nat
  function : String
  deriving DecidableEq

/-- `os.path.basename`: the part after the last slash. -/
def basename (p : String) : String := (p.splitOn "/").getLastD ""

/-- The fields of a `RunShellCmdError` instance (run.py lines 98-109). -/
structure RunShellCmdErrorData where
  cmd : String
  cmd_name : String
  exit_code : Int
  work_dir : String
  output : String
  out_file : Option String
  stderr : Option String
  err_file : Option String
  caller_info : CallerInfo
  deriving DecidableEq

/-- Constructor of `RunShellCmdError` (run.py lines 98-109): copies the
fields of the command result, derives `cmd_name` from the first word of the
command, and records the caller info. -/
def mkRunShellCmdError (res : RunShellCmdResult) (caller : CallerInfo) :
    RunShellCmdErrorData :=
  { cmd := res.cmd
    cmd_name := basename ((res.cmd.splitOn " ").headD "")
    exit_code := res.exit_code
    work_dir := res.work_dir
    output := res.output
    out_file := res.out_file
    stderr := res.stderr
    err_file := res.err_file
    caller_info := caller }

/-- Tail of `run_shell_cmd` (run.py lines 567-572): on a non-zero exit code
with `fail_on_error` enabled, `raise_run_shell_cmd_error` raises a
`RunShellCmdError` built from the result and the caller info; otherwise the
result is returned. -/
def run_shell_cmd_check (res : RunShellCmdResult) (fail_on_error : Bool)
    (caller : CallerInfo) : Except RunShellCmdErrorData RunShellCmdResult :=
  if res.exit_code = 0 then Except.ok res
  else if fail_on_error then Except.error (mkRunShellCmdError res caller)
  else Except.ok res

/-- C2: `terminate_process` first sends the graceful stop signal (SIGTERM is
the first delivered signal) and waits up to the grace period; the forceful
SIGKILL is delivered only if the process is still running after that wait;
and the fatal could-not-be-reaped error is raised exactly when the process
is still running after the second wait. -/
theorem c2_terminate_process (p : PopenState) :
    (p.alive = true → (terminate_process p).1.head? = some Sig.sigterm) ∧
    (Sig.sigkill ∈ (terminate_process p).1 ↔
      p.alive = true ∧ p.exitsAfterTerm = false) ∧
    ((terminate_process p).2 = true ↔
      p.alive = true ∧ p.exitsAfterTerm = false ∧ p.exitsAfterKill = false) := by
  obtain ⟨a, t, k⟩ := p
  cases a <;> cases t <;> cases k <;> decide

/-- Witness for C2, at a live process that survives the graceful phase. -/
theorem c2_terminate_process_witness :
    (terminate_process ⟨true, false, true⟩).1.head? = some Sig.sigterm :=
  (c2_terminate_process ⟨true, false, true⟩).1 rfl

/-- C1 (counterexample): with the default budgets (`qa_timeout = 100`
seconds, i.e. 1000 ticks, and `maxhits = 50`), exhausting the stall budget
in `run_shell_cmd` raises the fatal stall error with no termination action
at all, and exhausting it in `run_cmd_qa` performs two forceful SIGKILLs;
neither path performs the escalating graceful-then-forceful sequence. -/
theorem c1_counterexample :
    qa_stall_check false 1000 1000 = StallStep.stallRaise [] ∧
    ([] : List ProcAction) ≠ escalatingTermination ∧
    maxhits_check 51 50 = some [ProcAction.killpgSIGKILL, ProcAction.killSIGKILL] ∧
    [ProcAction.killpgSIGKILL, ProcAction.killSIGKILL] ≠ escalatingTermination := by
  decide

/-- C1 (amended): when `run_shell_cmd`'s accumulated no-match time exceeds
the Q&A budget, the fatal stall error is raised without any process-directed
action; when `run_cmd_qa`'s hit counter exceeds `maxhits`, the child is
killed forcefully (SIGKILL to the process group, then to the process)
before the fatal error is raised. -/
theorem c1_stall_actions (t qt hc mh : Nat) :
    (qt < t + 1 → qa_stall_check false t qt = StallStep.stallRaise []) ∧
    (mh < hc → maxhits_check hc mh =
      some [ProcAction.killpgSIGKILL, ProcAction.killSIGKILL]) := by
  constructor
  · intro h
    simp [qa_stall_check, h]
  · intro h
    simp [maxhits_check, h]

/-- Witness for C1's amended theorem, at the default budgets. -/
theorem c1_stall_actions_witness :
    qa_stall_check false 1000 1000 = StallStep.stallRaise [] ∧
    maxhits_check 51 50 = some [ProcAction.killpgSIGKILL, ProcAction.killSIGKILL] :=
  ⟨(c1_stall_actions 1000 1000 51 50).1 (by decide),
   (c1_stall_actions 1000 1000 51 50).2 (by decide)⟩

/-- C10: `RunShellCmdError` is a direct subclass of `BaseException` and not
a subclass of `Exception`, so a handler catching `Exception` does not catch
it; `run_shell_cmd` with `fail_on_error` raises it on a non-zero exit code;
and the raised error carries the command, exit code, output, stderr, output
file paths, working directory and caller location of the failing call. -/
theorem c10_run_shell_cmd_error (res : RunShellCmdResult) (caller : CallerInfo)
    (h0 : res.exit_code ≠ 0) :
    pySuperclass PyClass.RunShellCmdErrorCls = some PyClass.BaseExceptionCls ∧
    isSubclass PyClass.RunShellCmdErrorCls PyClass.ExceptionCls = false ∧
    isSubclass PyClass.RunShellCmdErrorCls PyClass.BaseExceptionCls = true ∧
    run_shell_cmd_check res true caller =
      Except.error (mkRunShellCmdError res caller) ∧
    (mkRunShellCmdError res caller).cmd = res.cmd ∧
    (mkRunShellCmdError res caller).exit_code = res.exit_code ∧
    (mkRunShellCmdError res caller).output = res.output ∧
    (mkRunShellCmdError res caller).stderr = res.stderr ∧
    (mkRunShellCmdError res caller).out_file = res.out_file ∧
    (mkRunShellCmdError res caller).err_file = res.err_file ∧
    (mkRunShellCmdError res caller).work_dir = res.work_dir ∧
    (mkRunShellCmdError res caller).caller_info = caller := by
  refine ⟨rfl, by decide, by decide, ?_, rfl, rfl, rfl, rfl, rfl, rfl, rfl, rfl⟩
  simp [run_shell_cmd_check, h0]

/-- Witness for C10 at a concrete failed command result. -/
theorem c10_run_shell_cmd_error_witness :
    run_shell_cmd_check
        { cmd := "false", exit_code := 1, output := "", stderr := none,
          work_dir := "/tmp", out_file := none, err_file := none,
          thread_id := none, task_id := none } true ⟨"f.py", 3, "main"⟩ =
      Except.error (mkRunShellCmdError
        { cmd := "false", exit_code := 1, output := "", stderr := none,
          work_dir := "/tmp", out_file := none, err_file := none,
          thread_id := none, task_id := none } ⟨"f.py", 3, "main"⟩) :=
  (c10_run_shell_cmd_error
    { cmd := "false", exit_code := 1, output := "", stderr := none,
      work_dir := "/tmp", out_file := none, err_file := none,
      thread_id := none, task_id := none } ⟨"f.py", 3, "main"⟩
    (by decide)).2.2.2.1

/-- C9: every synchronous `run_cmd` and every completing `run_cmd_qa`
restores the process-wide working directory: on success the final working
directory equals the one current before the call, also when the command ran
in a different directory via `path`; when restoring the original directory
fails (it no longer exists), an error is raised. -/
theorem c9_cwd_restored (s : OSState) (path : Option String)
    (cmdFS : List String → List String) :
    (∀ r, run_cmd_model s path cmdFS = Except.ok r → r.cwd = s.cwd) ∧
    (∀ r, run_cmd_qa_model s path cmdFS = Except.ok r → r.cwd = s.cwd) ∧
    ((∃ e, run_cmd_model s path cmdFS = Except.error e) ↔ s.cwd ∉ cmdFS s.dirs) ∧
    ((∃ e, run_cmd_qa_model s path cmdFS = Except.error e) ↔ s.cwd ∉ cmdFS s.dirs) := by
  have hdirs : ∀ m : Except String OSState,
      (m = run_cmd_model s path cmdFS ∨ m = run_cmd_qa_model s path cmdFS) →
      m = if s.cwd ∈ cmdFS s.dirs
          then Except.ok { cwd := s.cwd, dirs := cmdFS s.dirs }
          else Except.error "Failed to return to the original working directory" := by
    intro m hm
    have : run_cmd_model s path cmdFS = run_cmd_qa_model s path cmdFS := by
      unfold run_cmd_model run_cmd_qa_model
      rfl
    rcases hm with h | h <;> rw [h] <;> [skip; rw [← this]] <;>
      · unfold run_cmd_model chdir
        rcases path with _ | p
        · simp only []
          split <;> simp_all
        · by_cases hp : p ∈ s.dirs <;> simp only [hp, chdir] <;> split <;> simp_all
  have h1 := hdirs (run_cmd_model s path cmdFS) (Or.inl rfl)
  have h2 := hdirs (run_cmd_qa_model s path cmdFS) (Or.inr rfl)
  by_cases hc : s.cwd ∈ cmdFS s.dirs <;>
    simp only [hc, if_pos, if_neg, not_true, not_false_iff] at h1 h2 <;>
    refine ⟨?_, ?_, ?_, ?_⟩ <;> simp_all

/-- Witness for C9: a command run via `path` in another directory, with a
filesystem the command leaves unchanged, ends back in the starting
directory. -/
theorem c9_cwd_restored_witness :
    (OSState.mk "/home" ["/home", "/build"]).cwd = "/home" :=
  (c9_cwd_restored ⟨"/home", ["/home", "/build"]⟩ (some "/build") id).1
    ⟨"/home", ["/home", "/build"]⟩ rfl

/-- C3 (counterexample): a dry-run invocation with the default
`output_file = True` does mutate the filesystem: the temporary output
directories are created before the dry-run early exit. -/
theorem c3_counterexample :
    (run_shell_cmd_pre (Cmd.str "rm -rf /tmp/whatever") false false false none
        "/home/user" true false ⟨true, false⟩ "rm--rf--tmp-whatever-x1" none
        none).2 =
      [Effect.makedirs "run-shell-cmd-output",
       Effect.mkdtemp "rm--rf--tmp-whatever-x1"] ∧
    (run_shell_cmd_pre (Cmd.str "rm -rf /tmp/whatever") false false false none
        "/home/user" true false ⟨true, false⟩ "rm--rf--tmp-whatever-x1" none
        none).2 ≠ [] := by
  constructor
  · rfl
  · decide

/-- C3 (amended): in extended dry-run mode without forced real execution,
`run_shell_cmd` returns a result with exit code 0, empty output text and no
separated stderr, and never reaches the spawn; the only filesystem effects
are the creation of the temporary output directories, present exactly when
`output_file` is enabled. -/
theorem c3_dry_run (cmd : Cmd) (hidden verbose_dry_run : Bool)
    (work_dir : Option String) (cwd : String) (output_file split_stderr : Bool)
    (cfg : DryRunCfg) (tmpdir : String) (thread_id : Option Nat)
    (task_id : Option String) (hdry : cfg.extended_dry_run = true) :
    (∃ res, (run_shell_cmd_pre cmd false hidden verbose_dry_run work_dir cwd
        output_file split_stderr cfg tmpdir thread_id task_id).1 = some res ∧
      res.exit_code = 0 ∧ res.output = "" ∧ res.stderr = none) ∧
    (∀ c, Effect.spawn c ∉ (run_shell_cmd_pre cmd false hidden verbose_dry_run
        work_dir cwd output_file split_stderr cfg tmpdir thread_id task_id).2) ∧
    (output_file = false → (run_shell_cmd_pre cmd false hidden verbose_dry_run
        work_dir cwd output_file split_stderr cfg tmpdir thread_id task_id).2 =
      []) ∧
    (output_file = true → (run_shell_cmd_pre cmd false hidden verbose_dry_run
        work_dir cwd output_file split_stderr cfg tmpdir thread_id task_id).2 =
      [Effect.makedirs "run-shell-cmd-output", Effect.mkdtemp tmpdir]) := by
  unfold run_shell_cmd_pre
  cases output_file <;> simp [hdry]

/-- Witness for C3's amended theorem, at the counterexample's input. -/
theorem c3_dry_run_witness :
    ∃ res, (run_shell_cmd_pre (Cmd.str "rm -rf /tmp/whatever") false false false
        none "/home/user" true false ⟨true, false⟩ "rm--rf--tmp-whatever-x1"
        none none).1 = some res ∧
      res.exit_code = 0 ∧ res.output = "" ∧ res.stderr = none :=
  (c3_dry_run (Cmd.str "rm -rf /tmp/whatever") false false none "/home/user"
    true false ⟨true, false⟩ "rm--rf--tmp-whatever-x1" none none rfl).1

/-- C6 (counterexample): an answer that already ends with a newline is not
written unchanged by `_answer_question`: the newline is appended
unconditionally, so the reply carries a doubled newline. -/
theorem c6_counterexample :
    answer_question id "q".data [("q".data, Answers.fixed "y\n")] [] =
      AQOutcome.answered "y\n\n" [("q".data, Answers.fixed "y\n")] ∧
    ("y\n\n" : String) ≠ "y\n" := by
  constructor
  · rfl
  · decide

/-- C6 (amended): in `run_shell_cmd`'s `_answer_question` the formatted
answer is written with a newline appended unconditionally, even when it
already ends with one; the append-only-if-absent behaviour holds in
`run_cmd_qa`'s `process_QA` normalisation (`ensureNewline`), which leaves an
answer already ending in a newline unchanged. -/
theorem c6_newline (subst : String → String) (stdout : List Char)
    (q : List Char) (ans : Answers) (rest : List (List Char × Answers))
    (wait : List (List Char)) (a : String) (ans' : Answers)
    (hm : searchLitWS q stdout = true) (hta : takeAnswer ans = some (a, ans')) :
    answer_question subst stdout ((q, ans) :: rest) wait =
      AQOutcome.answered (subst a ++ "\n") ((q, ans') :: rest) ∧
    (∀ s : String, s.endsWith "\n" = true → ensureNewline s = s) ∧
    (∀ s : String, s.endsWith "\n" = false → ensureNewline s = s ++ "\n") := by
  refine ⟨?_, ?_, ?_⟩
  · simp [answer_question, answerQuestionsGo, hm, hta]
  · intro s h
    simp [ensureNewline, h]
  · intro s h
    simp [ensureNewline, h]

/-- Witness for C6's amended theorem: the doubled-newline reply. -/
theorem c6_newline_witness :
    answer_question id "q".data [("q".data, Answers.fixed "y\n")] [] =
      AQOutcome.answered (id "y\n" ++ "\n") [("q".data, Answers.fixed "y\n")] :=
  (c6_newline id "q".data "q".data (Answers.fixed "y\n") [] [] "y\n"
    (Answers.fixed "y\n") (by decide) rfl).1

/-- C4: for a string command on the allow-list, a second call with the same
command text and the same stdin returns the cached result of the first call
without invoking the wrapped function (no second process is spawned);
argument-vector commands are never stored in nor served from the cache. -/
theorem c4_cache (run : Cmd → Option String → Option String → RunShellCmdResult)
    (cache : Cache) (s : String) (stdin inp : Option String)
    (hs : s ∈ CACHED_COMMANDS) :
    ((run_cmd_cached run
        (run_cmd_cached run cache (Cmd.str s) stdin inp).2.1
        (Cmd.str s) stdin inp).1 =
      (run_cmd_cached run cache (Cmd.str s) stdin inp).1 ∧
     (run_cmd_cached run
        (run_cmd_cached run cache (Cmd.str s) stdin inp).2.1
        (Cmd.str s) stdin inp).2.2 = false) ∧
    (∀ args, (run_cmd_cached run cache (Cmd.argv args) stdin inp).2.2 = true ∧
      (run_cmd_cached run cache (Cmd.argv args) stdin inp).2.1 = cache) := by
  constructor
  · cases h : cacheLookup cache (Cmd.str s, effInput stdin inp) with
    | some r => simp [run_cmd_cached, h, isStrCmd]
    | none =>
      simp [run_cmd_cached, h, isStrCmd, inCachedCommands, hs, cacheLookup]
  · intro args
    cases h : cacheLookup cache (Cmd.argv args, effInput stdin inp) with
    | some r => simp [run_cmd_cached, h, isStrCmd, inCachedCommands]
    | none => simp [run_cmd_cached, h, isStrCmd, inCachedCommands]

/-- Witness for C4: the allow-listed probe `ulimit -u` on an empty cache. -/
theorem c4_cache_witness :
    (run_cmd_cached
        (fun _ _ _ =>
          { cmd := "ulimit -u", exit_code := 0, output := "1024", stderr := none,
            work_dir := "/", out_file := none, err_file := none,
            thread_id := none, task_id := none })
        (run_cmd_cached
          (fun _ _ _ =>
            { cmd := "ulimit -u", exit_code := 0, output := "1024", stderr := none,
              work_dir := "/", out_file := none, err_file := none,
              thread_id := none, task_id := none })
          [] (Cmd.str "ulimit -u") none none).2.1
        (Cmd.str "ulimit -u") none none).2.2 = false :=
  (c4_cache
    (fun _ _ _ =>
      { cmd := "ulimit -u", exit_code := 0, output := "1024", stderr := none,
        work_dir := "/", out_file := none, err_file := none,
        thread_id := none, task_id := none })
    [] "ulimit -u" none none (by decide)).1.2

/-- A question whose answer source is a nonempty rotating list answers with
the head and rotates the list by one. -/
theorem qaStep_single_rotating (subst : String → String) (stdout : List Char)
    (wait : List (List Char)) (q : List Char) (a : String) (rest : List String)
    (hm : searchLitWS q stdout = true) :
    qaStep subst stdout wait [(q, Answers.rotating (a :: rest))] =
      some (subst a ++ "\n", [(q, Answers.rotating (rest ++ [a]))]) := by
  simp [qaStep, answer_question, answerQuestionsGo, takeAnswer, hm]

/-- Iterating the Q&A cycle on a single always-matching question with a
rotating answer list rotates the list. -/
theorem qaStateN_single_rotating (subst : String → String) (stdout : List Char)
    (wait : List (List Char)) (q : List Char)
    (hm : searchLitWS q stdout = true) :
    ∀ (n : Nat) (l : List String), l ≠ [] →
      qaStateN subst stdout wait n [(q, Answers.rotating l)] =
        some [(q, Answers.rotating (l.rotate n))] := by
  intro n
  induction n with
  | zero =>
    intro l hl
    simp [qaStateN]
  | succ n ih =>
    intro l hl
    match l with
    | a :: rest =>
      rw [qaStateN, qaStep_single_rotating subst stdout wait q a rest hm]
      show qaStateN subst stdout wait n [(q, Answers.rotating (rest ++ [a]))] =
        some [(q, Answers.rotating ((a :: rest).rotate (n + 1)))]
      rw [ih (rest ++ [a]) (by simp), List.rotate_cons_succ]

/-- C5: with a rotating answer list of length `N`, the `n`-th occurrence of
the question (0-indexed) is answered with element `n mod N` of the original
list; after `N` occurrences the list is back in its initial order, and
occurrence `N + 1` receives the same answer as occurrence `1`. -/
theorem c5_rotating_answers (subst : String → String) (stdout : List Char)
    (wait : List (List Char)) (q : List Char) (l : List String)
    (hl : l ≠ []) (hm : searchLitWS q stdout = true) (n : Nat) :
    qaAnswerAt subst stdout wait [(q, Answers.rotating l)] n =
      some (subst (l.get ⟨n % l.length, Nat.mod_lt n (List.length_pos.mpr hl)⟩) ++ "\n") ∧
    qaStateN subst stdout wait l.length [(q, Answers.rotating l)] =
      some [(q, Answers.rotating l)] ∧
    qaAnswerAt subst stdout wait [(q, Answers.rotating l)] l.length =
      qaAnswerAt subst stdout wait [(q, Answers.rotating l)] 0 := by
  have hstate := qaStateN_single_rotating subst stdout wait q hm
  have hans : ∀ m : Nat, qaAnswerAt subst stdout wait [(q, Answers.rotating l)] m =
      some (subst (l.get ⟨m % l.length, Nat.mod_lt m (List.length_pos.mpr hl)⟩) ++ "\n") := by
    intro m
    have hrot : l.rotate m ≠ [] := by
      intro h
      apply hl
      have hlen := List.length_rotate l m
      rw [h] at hlen
      exact List.length_eq_zero.mp hlen.symm
    obtain ⟨a, rest, hal⟩ : ∃ a rest, l.rotate m = a :: rest := by
      cases hcase : l.rotate m with
      | nil => exact absurd hcase hrot
      | cons a rest => exact ⟨a, rest, rfl⟩
    have hmod : m % l.length < l.length := Nat.mod_lt m (List.length_pos.mpr hl)
    have hhead : a = l.get ⟨m % l.length, hmod⟩ := by
      have h1 : (l.rotate m).head? = some a := by
        rw [hal]
        rfl
      have h2 : (l.rotate m).head? = l[m % l.length]? := by
        rw [← List.rotate_mod]
        exact List.head?_rotate hmod
      rw [h1, List.getElem?_eq_getElem hmod] at h2
      simpa [List.get_eq_getElem] using Option.some_inj.mp h2
    rw [qaAnswerAt, hstate m l hl, hal]
    show (qaStep subst stdout wait [(q, Answers.rotating (a :: rest))]).map Prod.fst =
      some (subst (l.get ⟨m % l.length, hmod⟩) ++ "\n")
    rw [qaStep_single_rotating subst stdout wait q a rest hm, ← hhead]
    rfl
  refine ⟨hans n, ?_, ?_⟩
  · rw [hstate l.length l hl, List.rotate_length]
  · rw [hans l.length, hans 0]
    simp

/-- Witness for C5: answer list of length 2 probed repeatedly. -/
theorem c5_rotating_answers_witness :
    qaStateN id "q".data [] 2 [("q".data, Answers.rotating ["a", "b"])] =
      some [("q".data, Answers.rotating ["a", "b"])] :=
  (c5_rotating_answers id "q".data [] "q".data ["a", "b"] (by decide)
    (by decide) 0).2.1

/-- A match of `pat ++ [\s\n]*$` anchored at the start implies the search
succeeds. -/
theorem searchLitWS_of_matchHere (pat s : List Char)
    (h : matchHereWS pat s = true) : searchLitWS pat s = true := by
  cases s with
  | nil => simpa [searchLitWS] using h
  | cons c rest => simp [searchLitWS, h]

/-- The pattern followed by whitespace only matches at that position. -/
theorem matchHereWS_append (pat ws : List Char) (hws : ws.all isWSChar = true) :
    matchHereWS pat (pat ++ ws) = true := by
  have h1 : pat.isPrefixOf (pat ++ ws) = true := by
    rw [List.isPrefixOf_iff_prefix]
    exact List.prefix_append pat ws
  simp [matchHereWS, h1, List.drop_left, hws]

/-- The question scan returns `none` exactly when no question pattern
matches the output. -/
theorem answerQuestionsGo_eq_none (subst : String → String) (stdout : List Char)
    (pats : List (List Char × Answers)) :
    answerQuestionsGo subst stdout pats = none ↔
      ∀ p ∈ pats, searchLitWS p.1 stdout = false := by
  induction pats with
  | nil => simp [answerQuestionsGo]
  | cons hd tl ih =>
    obtain ⟨q, ans⟩ := hd
    by_cases hq : searchLitWS q stdout
    · cases hta : takeAnswer ans with
      | some v => simp [answerQuestionsGo, hq, hta]
      | none => simp [answerQuestionsGo, hq, hta]
    · simp only [Bool.not_eq_true] at hq
      simp [answerQuestionsGo, hq, ih]

/-- The first question pattern in insertion order that matches wins: the
patterns before it (all non-matching) are skipped, its answer alone is
consumed and written, and the patterns after it are left untouched. -/
theorem answerQuestionsGo_first_match (subst : String → String)
    (stdout : List Char) (q : List Char) (ans : Answers) (a : String)
    (ans' : Answers) (hq : searchLitWS q stdout = true)
    (hta : takeAnswer ans = some (a, ans')) :
    ∀ (pre rest : List (List Char × Answers)),
      (∀ p ∈ pre, searchLitWS p.1 stdout = false) →
      answerQuestionsGo subst stdout (pre ++ (q, ans) :: rest) =
        some (some (subst a ++ "\n", pre ++ (q, ans') :: rest)) := by
  intro pre
  induction pre with
  | nil =>
    intro rest _
    simp [answerQuestionsGo, hq, hta]
  | cons p pre' ih =>
    intro rest h
    obtain ⟨p1, p2⟩ := p
    have hp : searchLitWS p1 stdout = false := h (p1, p2) (List.mem_cons_self _ _)
    have hrest : ∀ x ∈ pre', searchLitWS x.1 stdout = false :=
      fun x hx => h x (List.mem_cons_of_mem _ hx)
    simp [answerQuestionsGo, hp, ih rest hrest]

/-- C7: on each matching cycle question patterns are tried before wait
patterns (the wait list is irrelevant whenever some question matches); the
first question pattern in insertion order whose regex matches the output
wins and only its answer is consumed and written; and every pattern, being
extended with trailing `[\s\n]*$`, matches with optional trailing whitespace
after the pattern text. -/
theorem c7_matching_order (subst : String → String) (stdout : List Char) :
    (∀ (pats : List (List Char × Answers)) (w₁ w₂ : List (List Char)),
      (∃ p ∈ pats, searchLitWS p.1 stdout = true) →
      answer_question subst stdout pats w₁ = answer_question subst stdout pats w₂) ∧
    (∀ (pre : List (List Char × Answers)) (q : List Char) (ans : Answers)
        (a : String) (ans' : Answers) (rest : List (List Char × Answers))
        (wait : List (List Char)),
      (∀ p ∈ pre, searchLitWS p.1 stdout = false) →
      searchLitWS q stdout = true → takeAnswer ans = some (a, ans') →
      answer_question subst stdout (pre ++ (q, ans) :: rest) wait =
        AQOutcome.answered (subst a ++ "\n") (pre ++ (q, ans') :: rest)) ∧
    (∀ (pat pre ws : List Char), ws.all isWSChar = true →
      searchLitWS pat (pre ++ pat ++ ws) = true) := by
  refine ⟨?_, ?_, ?_⟩
  · intro pats w₁ w₂ hex
    unfold answer_question
    cases hgo : answerQuestionsGo subst stdout pats with
    | some v => cases v <;> rfl
    | none =>
      exfalso
      obtain ⟨p, hp, hmatch⟩ := hex
      have := (answerQuestionsGo_eq_none subst stdout pats).mp hgo p hp
      rw [hmatch] at this
      exact Bool.noConfusion this
  · intro pre q ans a ans' rest wait hpre hq hta
    rw [answer_question, answerQuestionsGo_first_match subst stdout q ans a ans' hq hta pre rest hpre]
  · intro pat pre ws hws
    induction pre with
    | nil =>
      rw [List.nil_append]
      exact searchLitWS_of_matchHere pat (pat ++ ws) (matchHereWS_append pat ws hws)
    | cons c pre' ih =>
      have : (c :: pre') ++ pat ++ ws = c :: (pre' ++ pat ++ ws) := by simp
      rw [this, searchLitWS, ih]
      simp

/-- Witness for C7: the second question pattern wins after the
non-matching first one; a trailing newline is tolerated after the text. -/
theorem c7_matching_order_witness :
    answer_question id "ab".data
        ([(['z'], Answers.fixed "0")] ++ (['b'], Answers.fixed "2") :: []) [] =
      AQOutcome.answered (id "2" ++ "\n")
        ([(['z'], Answers.fixed "0")] ++ (['b'], Answers.fixed "2") :: []) :=
  (c7_matching_order id "ab".data).2.1 [(['z'], Answers.fixed "0")] ['b']
    (Answers.fixed "2") "2" (Answers.fixed "2") [] [] (by decide) (by decide) rfl

/-- Membership in the deduplication helper: an element survives when it is
in the input and not among the already-seen ones. -/
theorem nubAux_mem (x : String) : ∀ (xs seen : List String),
    x ∈ nubAux seen xs ↔ x ∈ xs ∧ x ∉ seen := by
  intro xs
  induction xs with
  | nil =>
    intro seen
    simp [nubAux]
  | cons y ys ih =>
    intro seen
    by_cases hy : y ∈ seen
    · rw [nubAux, if_pos hy, ih seen]
      constructor
      · rintro ⟨h1, h2⟩
        exact ⟨List.mem_cons_of_mem _ h1, h2⟩
      · rintro ⟨h1, h2⟩
        rcases List.mem_cons.mp h1 with h | h
        · subst h
          exact absurd hy h2
        · exact ⟨h, h2⟩
    · rw [nubAux, if_neg hy]
      constructor
      · intro hmem
        rcases List.mem_cons.mp hmem with h | h
        · subst h
          exact ⟨List.mem_cons_self _ _, hy⟩
        · obtain ⟨h1, h2⟩ := (ih (y :: seen)).mp h
          exact ⟨List.mem_cons_of_mem _ h1,
            fun hx => h2 (List.mem_cons_of_mem _ hx)⟩
      · rintro ⟨h1, h2⟩
        rcases List.mem_cons.mp h1 with h | h
        · subst h
          exact List.mem_cons_self _ _
        · by_cases hxy : x = y
          · subst hxy
            exact List.mem_cons_self _ _
          · refine List.mem_cons_of_mem _ ((ih (y :: seen)).mpr ⟨h, ?_⟩)
            intro hx
            rcases List.mem_cons.mp hx with h3 | h3
            · exact hxy h3
            · exact h2 h3

/-- The deduplication helper keeps a subsequence of the input, so the
surviving occurrences stay in their original (first-occurrence) order. -/
theorem nubAux_sublist : ∀ (xs seen : List String), (nubAux seen xs).Sublist xs := by
  intro xs
  induction xs with
  | nil =>
    intro seen
    simp [nubAux]
  | cons y ys ih =>
    intro seen
    by_cases hy : y ∈ seen
    · rw [nubAux, if_pos hy]
      exact (ih seen).cons y
    · rw [nubAux, if_neg hy]
      exact (ih (y :: seen)).cons₂ y

/-- The deduplication helper returns a list without duplicates. -/
theorem nubAux_nodup : ∀ (xs seen : List String), (nubAux seen xs).Nodup := by
  intro xs
  induction xs with
  | nil =>
    intro seen
    simp [nubAux]
  | cons y ys ih =>
    intro seen
    by_cases hy : y ∈ seen
    · rw [nubAux, if_pos hy]
      exact ih seen
    · rw [nubAux, if_neg hy]
      refine List.nodup_cons.mpr ⟨?_, ih (y :: seen)⟩
      intro hmem
      exact ((nubAux_mem y ys (y :: seen)).mp hmem).2 (List.mem_cons_self _ _)

/-- C8: per line, the first matching rule in the given order decides the
classification and later rules are not consulted; under pure WARN matches
the call does not fail; under any ERROR match the call raises, listing all
the matched lines; and the reported lists are deduplicated in stable
first-occurrence order. -/
theorem c8_log_classification :
    (∀ (rules₁ rules₂ : List ((String → Bool) × Severity)) (m : String → Bool)
        (act : Severity) (line : String),
      (∀ r ∈ rules₁, r.1 line = false) → m line = true →
      classifyLine (rules₁ ++ (m, act) :: rules₂) line = some act) ∧
    (∀ (log_txt : String) (rules : List ((String → Bool) × Severity)),
      (∀ line ∈ log_txt.splitOn "\n",
        classifyLine rules line ≠ some Severity.ERROR) →
      (check_log_for_errors log_txt rules).2 = none) ∧
    (∀ (log_txt : String) (rules : List ((String → Bool) × Severity))
        (line : String),
      line ∈ log_txt.splitOn "\n" →
      classifyLine rules line = some Severity.ERROR →
      (check_log_for_errors log_txt rules).2 =
        some (nub ((log_txt.splitOn "\n").filter
          (fun l => decide (classifyLine rules l = some Severity.ERROR))))) ∧
    (∀ xs : List String, (nub xs).Nodup ∧ (nub xs).Sublist xs ∧
      ∀ x, x ∈ nub xs ↔ x ∈ xs) := by
  refine ⟨?_, ?_, ?_, ?_⟩
  · intro rules₁ rules₂ m act line hskip hm
    induction rules₁ with
    | nil => simp [classifyLine, hm]
    | cons r rs ih =>
      obtain ⟨rm, ract⟩ := r
      have hr : rm line = false := hskip (rm, ract) (List.mem_cons_self _ _)
      rw [List.cons_append, classifyLine, hr]
      simp only [Bool.false_eq_true, if_false]
      exact ih (fun x hx => hskip x (List.mem_cons_of_mem _ hx))
  · intro log_txt rules hno
    have hfil : (log_txt.splitOn "\n").filter
        (fun l => decide (classifyLine rules l = some Severity.ERROR)) = [] := by
      rw [List.filter_eq_nil_iff]
      intro a ha
      simp only [decide_eq_true_eq]
      exact hno a ha
    simp [check_log_for_errors, extract_errors_from_log, hfil, nub, nubAux]
  · intro log_txt rules line hline hcl
    have hmem : line ∈ (log_txt.splitOn "\n").filter
        (fun l => decide (classifyLine rules l = some Severity.ERROR)) :=
      List.mem_filter.mpr ⟨hline, by simp [hcl]⟩
    have hne : nub ((log_txt.splitOn "\n").filter
        (fun l => decide (classifyLine rules l = some Severity.ERROR))) ≠ [] := by
      intro h
      have : line ∈ nub ((log_txt.splitOn "\n").filter
          (fun l => decide (classifyLine rules l = some Severity.ERROR))) :=
        (nubAux_mem line _ []).mpr ⟨hmem, by simp⟩
      rw [h] at this
      exact List.not_mem_nil line this
    simp only [check_log_for_errors, extract_errors_from_log]
    rw [if_neg (by simpa [List.isEmpty_iff] using hne)]
  · intro xs
    exact ⟨nubAux_nodup xs [], nubAux_sublist xs [],
      fun x => by rw [nub, nubAux_mem x xs []]; simp⟩

/-- Witness for C8: one earlier non-matching rule, then an ERROR rule that
matches the sole line of the log. -/
theorem c8_log_classification_witness :
    classifyLine ([(fun _ => false, Severity.WARN)] ++
        (fun l => l == "Error: disk full", Severity.ERROR) :: []) "Error: disk full" =
      some Severity.ERROR :=
  c8_log_classification.1 [(fun _ => false, Severity.WARN)] []
    (fun l => l == "Error: disk full") Severity.ERROR "Error: disk full"
    (by
      intro r hr
      rcases List.mem_cons.mp hr with h | h
      · rw [h]
      · exact absurd h (List.not_mem_nil r))
    (by decide)
